import Mathlib

set_option maxHeartbeats 1000000

namespace FlaskForge

/-- A Python string, modelled as its list of characters. -/
abbrev Doc := List Char

/-- The newline character inserted by the patcher. -/
def nl : Char := '\n'

/-- ASCII whitespace characters removed by Python str.rstrip. -/
def isPySpace (c : Char) : Bool :=
  c == ' ' || c == '\t' || c == '\n' || c == '\r' || c == Char.ofNat 11 || c == Char.ofNat 12

/-- Python str.rstrip(): remove trailing whitespace. -/
def pyRstrip (t : Doc) : Doc := (t.reverse.dropWhile isPySpace).reverse

/-- Python substring containment, the operator in: true when needle occurs
contiguously somewhere in text (always true for an empty needle). -/
def pyContains (needle : Doc) : Doc → Bool
  | [] => needle.isEmpty
  | c :: rest => needle.isPrefixOf (c :: rest) || pyContains needle rest

/-- Core loop of Python str.replace for a nonempty pattern: scan left to
right and replace each occurrence of old by new, without overlap.  The
first argument counts characters of a just-replaced occurrence that are
still to be skipped, which keeps the recursion structural. -/
def pyReplaceGo (old new : Doc) : Nat → Doc → Doc
  | _, [] => []
  | k + 1, _ :: rest => pyReplaceGo old new k rest
  | 0, c :: rest =>
    if old ≠ [] ∧ old.isPrefixOf (c :: rest) then
      new ++ pyReplaceGo old new (old.length - 1) rest
    else
      c :: pyReplaceGo old new 0 rest

/-- Scan of Python str.replace for a nonempty pattern, starting fresh. -/
def pyReplaceAux (old new : Doc) (t : Doc) : Doc := pyReplaceGo old new 0 t

/-- Python str.replace(old, new): every occurrence of old is replaced, left
to right; for an empty old, Python inserts new before every character and
once more at the end. -/
def pyReplace (t old new : Doc) : Doc :=
  if old = [] then new ++ t.flatMap (fun c => c :: new)
  else pyReplaceAux old new t

/-- The regular-expression engine re.search is an external library; it is
modelled as an oracle returning the span (start, end) of the first match
of a fixed pattern in the text, if any. -/
abbrev SearchFn := Doc → Option (Nat × Nat)

/-- The patcher insert_once from src/forge/commands/generate_cmd.py.
Step 1: if needle occurs in text, return text unchanged.
Step 2: if anchor occurs, str.replace the anchor by the needle and the
anchor joined with a newline, ordered by the before flag.
Step 3: if a fallback pattern was given and matches with span (s, e),
splice the needle at s (before=true) or at e (before=false).
Step 4: append the needle to the rstripped text on its own line. -/
def insert_once (text needle anchor : Doc) (before : Bool)
    (fallback : Option SearchFn) : Doc :=
  if pyContains needle text then text
  else if pyContains anchor text then
    pyReplace text anchor
      (if !before then needle ++ [nl] ++ anchor else anchor ++ [nl] ++ needle)
  else
    match fallback with
    | some search =>
      match search text with
      | some (s, e) =>
        if before then text.take s ++ needle ++ [nl] ++ text.drop s
        else text.take e ++ [nl] ++ needle ++ text.drop e
      | none => pyRstrip text ++ [nl] ++ needle ++ [nl]
    | none => pyRstrip text ++ [nl] ++ needle ++ [nl]

/-- The DI-wiring helper insert_after_line from generate_cmd.py: if the
pattern does not match, the payload is prepended unless already present;
if it matches, the payload is spliced at the match end unless present. -/
def insert_after_line (search : SearchFn) (text payload : Doc) : Doc :=
  match search text with
  | none => if pyContains payload text then text else payload ++ text
  | some (_, e) =>
      if pyContains payload text then text
      else text.take e ++ payload ++ text.drop e

/-- Number of positions at which needle occurs as a substring of text. -/
def countOcc (needle text : Doc) : Nat :=
  (List.range (text.length + 1)).countP (fun i => needle.isPrefixOf (text.drop i))

/-- bump_version from scripts/forge_release.py: semantic-version bump of a
parsed major.minor.patch triple; an unknown kind raises ForgeReleaseError,
modelled as none. -/
def bump_version (major minor patch : Nat) (version_type : String) :
    Option (Nat × Nat × Nat) :=
  if version_type = "patch" then some (major, minor, patch + 1)
  else if version_type = "minor" then some (major, minor + 1, 0)
  else if version_type = "major" then some (major + 1, 0, 0)
  else none

/-- get_current_version from scripts/forge_release.py, after the two regex
reads of pyproject.toml and the package init file, modelled by their
optional extracted version strings; raising ForgeReleaseError is modelled
as Except.error carrying the user-facing message. -/
def get_current_version (pyproject_match init_match : Option String) :
    Except String (String × String) :=
  match pyproject_match, init_match with
  | some v1, some v2 =>
      if v1 = v2 then Except.ok (v1, v2)
      else Except.error ("Version mismatch: pyproject.toml=" ++ v1 ++ " vs init=" ++ v2)
  | _, _ => Except.error "Could not find version in pyproject.toml or init"

/-- Process exit code of scripts/check_version_sync.py given the two regex
match results: a missing version exits 1, a mismatch exits 2, agreement
prints the version and the script falls off the end with exit 0. -/
def check_version_sync (m1 m2 : Option String) : Nat :=
  match m1, m2 with
  | some v1, some v2 => if v1 = v2 then 0 else 2
  | _, _ => 1

/-- Process exit code of forge_release.py main() when the version read is
the step that decides the outcome: a ForgeReleaseError raised by
get_current_version is caught and the process exits 1; on success the
command continues, modelled as 0 here. -/
def release_exit_code (m1 m2 : Option String) : Nat :=
  match get_current_version m1 m2 with
  | Except.ok _ => 0
  | Except.error _ => 1

lemma pyReplaceGo_skip (old new : Doc) : ∀ (k : Nat) (t : Doc),
    pyReplaceGo old new k t = pyReplaceGo old new 0 (t.drop k) := by
  intro k t
  induction t generalizing k with
  | nil => cases k <;> rfl
  | cons c rest ih =>
    cases k with
    | zero => rfl
    | succ k =>
      show pyReplaceGo old new k rest = _
      rw [List.drop_succ_cons]
      exact ih k

lemma pyReplaceAux_nil (old new : Doc) : pyReplaceAux old new [] = [] := rfl

lemma pyReplaceAux_cons (old new : Doc) (c : Char) (rest : Doc) :
    pyReplaceAux old new (c :: rest) =
      if old ≠ [] ∧ old.isPrefixOf (c :: rest) then
        new ++ pyReplaceAux old new (rest.drop (old.length - 1))
      else c :: pyReplaceAux old new rest := by
  show (if old ≠ [] ∧ old.isPrefixOf (c :: rest) then
      new ++ pyReplaceGo old new (old.length - 1) rest
    else c :: pyReplaceGo old new 0 rest) = _
  rw [pyReplaceGo_skip old new (old.length - 1) rest]
  rfl

lemma pyContains_iff (needle t : Doc) : pyContains needle t = true ↔ needle <:+: t := by
  induction t with
  | nil => simp [pyContains]
  | cons c rest ih =>
    rw [List.infix_cons_iff]
    simp [pyContains, ih]

lemma new_infix_pyReplaceAux (old new t : Doc) (hold : old ≠ []) (h : old <:+: t) :
    new <:+: pyReplaceAux old new t := by
  induction t with
  | nil =>
    simp at h
    exact absurd h hold
  | cons c rest ih =>
    rw [pyReplaceAux_cons]
    by_cases hp : old.isPrefixOf (c :: rest) = true
    · simp only [hold, hp, ne_eq, not_false_iff, true_and, if_true]
      exact ⟨[], pyReplaceAux old new (rest.drop (old.length - 1)), by simp⟩
    · rw [if_neg (by simp [hp])]
      have h' : old <:+: rest := by
        rcases List.infix_cons_iff.mp h with hpre | hinf
        · exact absurd ( List.isPrefixOf_iff_prefix.mpr hpre) hp
        · exact hinf
      exact List.infix_cons (ih h')

lemma new_infix_pyReplace (t old new : Doc) (h : old <:+: t) :
    new <:+: pyReplace t old new := by
  unfold pyReplace
  by_cases h0 : old = []
  · simp only [h0, if_true]
    exact ⟨[], t.flatMap (fun c => c :: new), by simp⟩
  · simp only [h0, if_false]
    exact new_infix_pyReplaceAux old new t h0 h

lemma needle_infix_insert_once (text needle anchor : Doc) (before : Bool)
    (fb : Option SearchFn) : needle <:+: insert_once text needle anchor before fb := by
  unfold insert_once
  by_cases h1 : pyContains needle text = true
  · simp only [h1, if_true]
    exact (pyContains_iff needle text).mp h1
  · simp only [h1, if_false]
    by_cases h2 : pyContains anchor text = true
    · simp only [h2, if_true]
      have hmid : needle <:+:
          (if !before then needle ++ [nl] ++ anchor else anchor ++ [nl] ++ needle) := by
        cases before with
        | false => exact ⟨[], [nl] ++ anchor, by simp⟩
        | true => exact ⟨anchor ++ [nl], [], by simp⟩
      exact hmid.trans
        (new_infix_pyReplace text anchor _ ((pyContains_iff anchor text).mp h2))
    · simp only [h2, if_false]
      cases fb with
      | none => exact ⟨pyRstrip text ++ [nl], [nl], by simp⟩
      | some search =>
        cases hs : search text with
        | none =>
          simp only [hs]
          exact ⟨pyRstrip text ++ [nl], [nl], by simp⟩
        | some se =>
          obtain ⟨s, e⟩ := se
          simp only [hs]
          cases before with
          | true => exact ⟨text.take s, [nl] ++ text.drop s, by simp⟩
          | false => exact ⟨text.take e ++ [nl], text.drop e, by simp⟩

lemma insert_once_of_found {text needle : Doc} (anchor : Doc) (before : Bool)
    (fb : Option SearchFn) (h : pyContains needle text = true) :
    insert_once text needle anchor before fb = text := by
  simp [insert_once, h]

lemma countOcc_nil_left (t : Doc) : countOcc [] t = t.length + 1 := by
  simp [countOcc]

lemma countOcc_cons (a : Doc) (c : Char) (t : Doc) :
    countOcc a (c :: t) = (if a.isPrefixOf (c :: t) then 1 else 0) + countOcc a t := by
  unfold countOcc
  rw [show (c :: t).length = t.length + 1 from rfl]
  rw [List.range_succ_eq_map]
  rw [List.countP_cons, List.countP_map]
  exact Nat.add_comm _ _

lemma countOcc_le_cons (a : Doc) (c : Char) (t : Doc) :
    countOcc a t ≤ countOcc a (c :: t) := by
  rw [countOcc_cons]
  omega

lemma countOcc_le_append (a p t : Doc) : countOcc a t ≤ countOcc a (p ++ t) := by
  induction p with
  | nil => simp
  | cons c p' ih =>
    rw [show (c :: p') ++ t = c :: (p' ++ t) from rfl]
    exact le_trans ih (countOcc_le_cons a c (p' ++ t))

lemma countOcc_pos_of_infix (a t : Doc) (h : a <:+: t) : 1 ≤ countOcc a t := by
  obtain ⟨u, v, huv⟩ := h
  refine List.countP_pos_iff.mpr ⟨u.length, List.mem_range.mpr ?_, ?_⟩
  · rw [← huv]
    simp
    omega
  · refine List.isPrefixOf_iff_prefix.mpr ?_
    rw [← huv, List.append_assoc, List.drop_left]
    exact ⟨v, rfl⟩

lemma pyReplaceAux_no_occ (a new t : Doc) (h : countOcc a t = 0) :
    pyReplaceAux a new t = t := by
  induction t with
  | nil => rfl
  | cons c rest ih =>
    rw [countOcc_cons] at h
    cases hb : a.isPrefixOf (c :: rest) with
    | true =>
      rw [hb] at h
      simp at h
    | false =>
      rw [hb] at h
      simp at h
      rw [pyReplaceAux_cons, if_neg (by simp [hb]), ih h]

lemma countOcc_self_append (a s : Doc) : 1 ≤ countOcc a (a ++ s) :=
  countOcc_pos_of_infix a (a ++ s) ⟨[], s, by simp⟩

lemma countOcc_head_zero (c : Char) (a' s : Doc)
    (h : countOcc (c :: a') ((c :: a') ++ s) = 1) : countOcc (c :: a') s = 0 := by
  rw [show (c :: a') ++ s = c :: (a' ++ s) from rfl, countOcc_cons] at h
  have hpre : (c :: a').isPrefixOf (c :: (a' ++ s)) = true :=
    List.isPrefixOf_iff_prefix.mpr ⟨s, by simp⟩
  rw [hpre] at h
  simp at h
  have := countOcc_le_append (c :: a') a' s
  omega

lemma pyReplaceAux_head (a new s : Doc) (ha : a ≠ []) (h0 : countOcc a s = 0) :
    pyReplaceAux a new (a ++ s) = new ++ s := by
  obtain ⟨c, a', rfl⟩ := List.exists_cons_of_ne_nil ha
  rw [show (c :: a') ++ s = c :: (a' ++ s) from rfl, pyReplaceAux_cons]
  have hpre : (c :: a').isPrefixOf (c :: (a' ++ s)) = true :=
    List.isPrefixOf_iff_prefix.mpr ⟨s, by simp⟩
  rw [if_pos ⟨by simp, hpre⟩]
  have hdrop : (a' ++ s).drop ((c :: a').length - 1) = s := by
    rw [show (c :: a').length - 1 = a'.length from by simp]
    exact List.drop_left a' s
  rw [hdrop, pyReplaceAux_no_occ _ _ _ h0]

lemma pyReplaceAux_unique (a new : Doc) (ha : a ≠ []) :
    ∀ (p s : Doc), countOcc a (p ++ (a ++ s)) = 1 →
      pyReplaceAux a new (p ++ (a ++ s)) = p ++ (new ++ s) := by
  intro p
  induction p with
  | nil =>
    intro s h
    simp only [List.nil_append] at h ⊢
    obtain ⟨c, a', ha'⟩ := List.exists_cons_of_ne_nil ha
    subst ha'
    exact pyReplaceAux_head _ new s ha (countOcc_head_zero c a' s h)
  | cons c p' ih =>
    intro s h
    rw [show (c :: p') ++ (a ++ s) = c :: (p' ++ (a ++ s)) from rfl] at h ⊢
    rw [countOcc_cons] at h
    have hnp : a.isPrefixOf (c :: (p' ++ (a ++ s))) = false := by
      cases hb : a.isPrefixOf (c :: (p' ++ (a ++ s))) with
      | false => rfl
      | true =>
        rw [hb] at h
        simp at h
        have h1 : 1 ≤ countOcc a (p' ++ (a ++ s)) :=
          le_trans (countOcc_self_append a s) (countOcc_le_append a p' (a ++ s))
        omega
    rw [hnp] at h
    simp at h
    rw [pyReplaceAux_cons, if_neg (by simp [hnp]), ih s h]
    rfl

lemma pyReplace_unique (a new p s : Doc) (h : countOcc a (p ++ (a ++ s)) = 1) :
    pyReplace (p ++ (a ++ s)) a new = p ++ (new ++ s) := by
  by_cases ha : a = []
  · subst ha
    rw [countOcc_nil_left] at h
    have hlen : (p ++ ([] ++ s)).length = 0 := by omega
    simp only [List.nil_append, List.length_append] at hlen
    have hp : p = [] := List.length_eq_zero.mp (by omega)
    have hs : s = [] := List.length_eq_zero.mp (by omega)
    subst hp
    subst hs
    simp [pyReplace]
  · unfold pyReplace
    rw [if_neg ha]
    exact pyReplaceAux_unique a new ha p s h

lemma insert_once_anchor (text needle anchor : Doc) (before : Bool) (fb : Option SearchFn)
    (h1 : pyContains needle text = false) (h2 : pyContains anchor text = true) :
    insert_once text needle anchor before fb =
      pyReplace text anchor
        (if !before then needle ++ [nl] ++ anchor else anchor ++ [nl] ++ needle) := by
  simp [insert_once, h1, h2]

lemma insert_once_fallback (text needle anchor : Doc) (before : Bool) (search : SearchFn)
    (s e : Nat) (h1 : pyContains needle text = false) (h2 : pyContains anchor text = false)
    (hs : search text = some (s, e)) :
    insert_once text needle anchor before (some search) =
      if before then text.take s ++ needle ++ [nl] ++ text.drop s
      else text.take e ++ [nl] ++ needle ++ text.drop e := by
  simp [insert_once, h1, h2, hs]

lemma insert_once_last (text needle anchor : Doc) (before : Bool)
    (h1 : pyContains needle text = false) (h2 : pyContains anchor text = false) :
    insert_once text needle anchor before none
      = pyRstrip text ++ [nl] ++ needle ++ [nl] := by
  simp [insert_once, h1, h2]

lemma insert_once_last_nomatch (text needle anchor : Doc) (before : Bool) (search : SearchFn)
    (h1 : pyContains needle text = false) (h2 : pyContains anchor text = false)
    (hs : search text = none) :
    insert_once text needle anchor before (some search)
      = pyRstrip text ++ [nl] ++ needle ++ [nl] := by
  simp [insert_once, h1, h2, hs]

/-- C1 (counterexample): the claim that the result of insert_once contains the
payload exactly once fails: for the document that already contains the payload
twice, insert_once returns it unchanged, with two occurrences of the payload. -/
theorem c1_payload_count_not_one :
    countOcc "x".data (insert_once "x\nx".data "x".data "z".data false none) ≠ 1 := by
  decide

/-- C1 (amended): for every document and insertion request, the document
returned by insert_once contains the payload at least once. -/
theorem c1_payload_at_least_once (text needle anchor : Doc) (before : Bool)
    (fb : Option SearchFn) :
    1 ≤ countOcc needle (insert_once text needle anchor before fb) :=
  countOcc_pos_of_infix _ _ (needle_infix_insert_once text needle anchor before fb)

/-- C2: applying insert_once twice with identical arguments equals applying it
once, and on a document already containing the payload it is the identity. -/
theorem c2_insert_once_idempotent (text needle anchor : Doc) (before : Bool)
    (fb : Option SearchFn) :
    insert_once (insert_once text needle anchor before fb) needle anchor before fb
      = insert_once text needle anchor before fb
    ∧ (pyContains needle text = true →
        insert_once text needle anchor before fb = text) := by
  constructor
  · exact insert_once_of_found anchor before fb
      ((pyContains_iff _ _).mpr (needle_infix_insert_once text needle anchor before fb))
  · intro h
    exact insert_once_of_found anchor before fb h

/-- C2 (witness): the idempotence theorem evaluated at a concrete input. -/
theorem c2_insert_once_idempotent_witness :
    insert_once (insert_once "a".data "x".data "m".data false none)
        "x".data "m".data false none
      = insert_once "a".data "x".data "m".data false none
    ∧ (pyContains "x".data "a".data = true →
        insert_once "a".data "x".data "m".data false none = "a".data) :=
  c2_insert_once_idempotent "a".data "x".data "m".data false none

/-- C3: evaluating insert_once at the spec example with before = true shows the
payload lands immediately after the anchor, not before it as the spec states;
the anchor branch reads the before flag inverted. -/
theorem c3_before_flag_inverted :
    insert_once "a\n# [marker]\nb".data "x".data "# [marker]".data true none
      = "a\n# [marker]\nx\nb".data
    ∧ insert_once "a\n# [marker]\nb".data "x".data "# [marker]".data false none
      = "a\nx\n# [marker]\nb".data
    ∧ "a\n# [marker]\nx\nb".data ≠ "a\nx\n# [marker]\nb".data := by
  decide

/-- C9: the duplicate check of insert_once is substring containment: whenever
the payload occurs anywhere in the text, also inside a longer line, the
document is returned unchanged. -/
theorem c9_substring_duplicate_check (text needle anchor : Doc) (before : Bool)
    (fb : Option SearchFn) (h : pyContains needle text = true) :
    insert_once text needle anchor before fb = text :=
  insert_once_of_found anchor before fb h

/-- C9 (witness): the payload occurs strictly inside a longer line and the
document is still returned unchanged. -/
theorem c9_substring_duplicate_check_witness :
    pyContains "xyz".data "val xyz_tail".data = true
    ∧ insert_once "val xyz_tail".data "xyz".data "#m".data false none
        = "val xyz_tail".data :=
  ⟨by decide,
   c9_substring_duplicate_check "val xyz_tail".data "xyz".data "#m".data false none
     (by decide)⟩

/-- C4: when the payload is absent, the anchor branch alone decides the result
as soon as the anchor occurs, independently of any fallback; otherwise, when
the fallback matcher returns the span of the first match, the payload is
spliced at the span start (before) or the span end (after). -/
theorem c4_priority_and_fallback_span (text needle anchor : Doc) (before : Bool)
    (fb fb' : Option SearchFn) (search : SearchFn) (s e : Nat)
    (h1 : pyContains needle text = false) :
    (pyContains anchor text = true →
        insert_once text needle anchor before fb
          = pyReplace text anchor
              (if !before then needle ++ [nl] ++ anchor else anchor ++ [nl] ++ needle)
        ∧ insert_once text needle anchor before fb
          = insert_once text needle anchor before fb')
    ∧ (pyContains anchor text = false → search text = some (s, e) →
        insert_once text needle anchor before (some search)
          = if before then text.take s ++ needle ++ [nl] ++ text.drop s
            else text.take e ++ [nl] ++ needle ++ text.drop e) := by
  constructor
  · intro h2
    constructor
    · exact insert_once_anchor text needle anchor before fb h1 h2
    · rw [insert_once_anchor text needle anchor before fb h1 h2,
          insert_once_anchor text needle anchor before fb' h1 h2]
  · intro h2 hs
    exact insert_once_fallback text needle anchor before search s e h1 h2 hs

/-- C4 (witness): the priority theorem evaluated at a concrete input. -/
theorem c4_priority_and_fallback_span_witness :
    pyContains "x".data "ab".data = false ∧
    ((pyContains "b".data "ab".data = true →
        insert_once "ab".data "x".data "b".data false none
          = pyReplace "ab".data "b".data
              (if !false then "x".data ++ [nl] ++ "b".data
               else "b".data ++ [nl] ++ "x".data)
        ∧ insert_once "ab".data "x".data "b".data false none
          = insert_once "ab".data "x".data "b".data false none)
     ∧ (pyContains "b".data "ab".data = false →
        (fun _ => some (0, 0) : SearchFn) "ab".data = some (0, 0) →
        insert_once "ab".data "x".data "b".data false (some (fun _ => some (0, 0)))
          = if false then
              "ab".data.take 0 ++ "x".data ++ [nl] ++ "ab".data.drop 0
            else
              "ab".data.take 0 ++ [nl] ++ "x".data ++ "ab".data.drop 0)) :=
  ⟨by decide,
   c4_priority_and_fallback_span "ab".data "x".data "b".data false none none
     (fun _ => some (0, 0)) 0 0 (by decide)⟩

/-- C5 (counterexample): with trailing whitespace in the document the last
resort does not return the document with the payload appended: it first
strips the trailing whitespace, here turning the last line "a " into "a". -/
theorem c5_rstrip_counterexample :
    insert_once "a \n".data "x".data "q".data false none = "a\nx\n".data
    ∧ "a\nx\n".data ≠ "a \n".data ++ "x".data ++ [nl]
    ∧ "a\nx\n".data ≠ "a \n".data ++ [nl] ++ "x".data ++ [nl] := by
  decide

/-- C5 (amended): when neither payload nor anchor occurs and the fallback is
absent or matches nowhere, insert_once returns the document with trailing
whitespace stripped and the payload appended on its own line; in the
embedding the function is total, so no error is ever raised. -/
theorem c5_last_resort (text needle anchor : Doc) (before : Bool)
    (h1 : pyContains needle text = false) (h2 : pyContains anchor text = false) :
    insert_once text needle anchor before none
      = pyRstrip text ++ [nl] ++ needle ++ [nl]
    ∧ ∀ search : SearchFn, search text = none →
        insert_once text needle anchor before (some search)
          = pyRstrip text ++ [nl] ++ needle ++ [nl] := by
  refine ⟨insert_once_last text needle anchor before h1 h2, ?_⟩
  intro search hs
  exact insert_once_last_nomatch text needle anchor before search h1 h2 hs

/-- C5 (witness): the last-resort theorem evaluated at a concrete input. -/
theorem c5_last_resort_witness :
    pyContains "x".data "ab".data = false ∧ pyContains "q".data "ab".data = false
    ∧ (insert_once "ab".data "x".data "q".data false none
        = pyRstrip "ab".data ++ [nl] ++ "x".data ++ [nl]
      ∧ ∀ search : SearchFn, search "ab".data = none →
          insert_once "ab".data "x".data "q".data false (some search)
            = pyRstrip "ab".data ++ [nl] ++ "x".data ++ [nl]) :=
  ⟨by decide, by decide,
   c5_last_resort "ab".data "x".data "q".data false (by decide) (by decide)⟩

/-- C6 (counterexample): with two occurrences of the anchor "m" in "m(nl)m"
and absent payload, insert_once patches both occurrences, so the suffix after
the first anchor is not preserved: the result is not mid ++ "(nl)m" for mid
the payload and anchor joined in either order. -/
theorem c6_two_anchors_counterexample :
    insert_once "m\nm".data "x".data "m".data false none = "x\nm\nx\nm".data
    ∧ "x\nm\nx\nm".data ≠ "x\nm".data ++ "\nm".data
    ∧ "x\nm\nx\nm".data ≠ "m\nx".data ++ "\nm".data := by
  decide

/-- C6 (amended): for every document containing exactly one occurrence of the
anchor and not containing the payload, marker-anchor insertion changes the
document only at the anchor: the prefix and suffix around the anchor
occurrence are preserved exactly. -/
theorem c6_frame (p s needle anchor : Doc) (before : Bool) (fb : Option SearchFn)
    (hn : pyContains needle (p ++ (anchor ++ s)) = false)
    (huniq : countOcc anchor (p ++ (anchor ++ s)) = 1) :
    insert_once (p ++ (anchor ++ s)) needle anchor before fb
      = p ++ ((if !before then needle ++ [nl] ++ anchor
               else anchor ++ [nl] ++ needle) ++ s) := by
  have h2 : pyContains anchor (p ++ (anchor ++ s)) = true :=
    (pyContains_iff _ _).mpr ⟨p, s, by simp⟩
  rw [insert_once_anchor _ _ _ _ _ hn h2]
  exact pyReplace_unique anchor _ p s huniq

/-- C6 (witness): the frame theorem evaluated at a concrete input. -/
theorem c6_frame_witness :
    pyContains "x".data ("a\n".data ++ ("#m".data ++ "\nb".data)) = false
    ∧ countOcc "#m".data ("a\n".data ++ ("#m".data ++ "\nb".data)) = 1
    ∧ insert_once ("a\n".data ++ ("#m".data ++ "\nb".data)) "x".data "#m".data false none
        = "a\n".data ++ ((if !false then "x".data ++ [nl] ++ "#m".data
                          else "#m".data ++ [nl] ++ "x".data) ++ "\nb".data) :=
  ⟨by decide, by decide,
   c6_frame "a\n".data "\nb".data "x".data "#m".data false none (by decide) (by decide)⟩

/-- C7: bump_version follows the semantic-versioning rules for the three
kinds, and (1, 2, 3) bumped major gives (2, 0, 0). -/
theorem c7_bump_version_rules (major minor patch : Nat) :
    bump_version major minor patch "patch" = some (major, minor, patch + 1)
    ∧ bump_version major minor patch "minor" = some (major, minor + 1, 0)
    ∧ bump_version major minor patch "major" = some (major + 1, 0, 0)
    ∧ bump_version 1 2 3 "major" = some (2, 0, 0) :=
  ⟨rfl, rfl, rfl, rfl⟩

/-- C8 (counterexample): on a version mismatch the standalone sync script
exits with code 2, not 1 as the claim states. -/
theorem c8_sync_exit_code_is_two :
    check_version_sync (some "1.0.0") (some "1.0.1") = 2
    ∧ check_version_sync (some "1.0.0") (some "1.0.1") ≠ 1 := by
  decide

/-- C8 (amended): whenever the two stored version strings disagree, the
operation fails with a user-facing message and a non-zero exit: the release
script classifies the mismatch as a ForgeReleaseError and exits 1, while the
standalone check_version_sync script exits 2. -/
theorem c8_mismatch_fails (v1 v2 : String) (h : v1 ≠ v2) :
    check_version_sync (some v1) (some v2) = 2
    ∧ release_exit_code (some v1) (some v2) = 1
    ∧ ∃ msg, get_current_version (some v1) (some v2) = Except.error msg := by
  refine ⟨?_, ?_, ?_⟩
  · simp [check_version_sync, h]
  · simp [release_exit_code, get_current_version, h]
  · exact ⟨"Version mismatch: pyproject.toml=" ++ v1 ++ " vs init=" ++ v2,
      by simp [get_current_version, h]⟩

/-- C8 (witness): the mismatch theorem evaluated at concrete versions. -/
theorem c8_mismatch_fails_witness :
    ("1.0.0" : String) ≠ "1.0.1"
    ∧ (check_version_sync (some "1.0.0") (some "1.0.1") = 2
      ∧ release_exit_code (some "1.0.0") (some "1.0.1") = 1
      ∧ ∃ msg, get_current_version (some "1.0.0") (some "1.0.1") = Except.error msg) :=
  ⟨by decide, c8_mismatch_fails "1.0.0" "1.0.1" (by decide)⟩

/-- C10: insert_after_line prepends the payload to the front of the document
when the pattern matches nowhere and the payload is absent, and returns the
document unchanged whenever the payload is already present. -/
theorem c10_insert_after_line_prepends (text payload : Doc) (search : SearchFn) :
    (search text = none → pyContains payload text = false →
        insert_after_line search text payload = payload ++ text)
    ∧ (pyContains payload text = true →
        insert_after_line search text payload = text) := by
  constructor
  · intro hs hp
    simp [insert_after_line, hs, hp]
  · intro hp
    cases hs : search text with
    | none => simp [insert_after_line, hs, hp]
    | some se =>
      obtain ⟨s', e⟩ := se
      simp [insert_after_line, hs, hp]

/-- C10 (witness): the prepend theorem evaluated at a concrete input. -/
theorem c10_insert_after_line_prepends_witness :
    ((fun _ => none : SearchFn) "ab".data = none →
        pyContains "x".data "ab".data = false →
        insert_after_line (fun _ => none) "ab".data "x".data = "x".data ++ "ab".data)
    ∧ (pyContains "x".data "ab".data = true →
        insert_after_line (fun _ => none) "ab".data "x".data = "ab".data) :=
  c10_insert_after_line_prepends "ab".data "x".data (fun _ => none)

end FlaskForge
